import Mathlib

/-!
Verification development for the city-temperature pipeline (`app.py`).

The embedding follows the source file stage by stage:

* `pyFloat`       — Python's `float(str)` conversion (finite decimal literals,
                    optional sign, fraction and exponent, surrounding
                    whitespace stripped, as `float` itself does); special
                    spellings that never occur in this dataset (`inf`, `nan`,
                    digit underscores, hex) are outside the modelled grammar
                    and simply fail to parse.
* `to_float`      — the coordinate normalizer `_to_float` (app.py lines 44-53).
* `parseDate`     — `pd.to_datetime(..., errors="coerce")` on ISO
                    `YYYY-MM-DD` dates, the format of the `dt` column; dates
                    are embedded as the natural number `y*10000 + m*100 + d`,
                    whose order agrees with chronological order.
* `coerceRow`, `dropna`, `loadData`
                  — the body of `load_data` (lines 17-59): coercion with
                    absent-on-failure, `dropna(subset=...)`, the column-wise
                    application of `_to_float` (an unparseable coordinate
                    raises, modelled as `Except.error`), and the sort by `dt`.
* `rangeFilter`, `binRow`, `aggregate`, `roundAgg`, `colorRange`
                  — the module-level pipeline (lines 69-107): the date clamp,
                    temporal binning with `TIME_STEP = "Yearly"`, the
                    `groupby(["t_label","City","Country"]).agg(mean)` with
                    sorted group keys (pandas `sort=True` default, tuples of
                    strings compared lexicographically by code point, exactly
                    Lean's `String` order), the 1-decimal rounding
                    (`np.round`, round-half-to-even), and the color range.

Real numbers (`float64`) are embedded as `Rat`: arithmetic is exact, which is
the standard idealisation for the mean/round/min/max reductions used here.
-/

/-! ### Characters, whitespace and Python float parsing -/

/-- ASCII whitespace stripped by Python's `str.strip()` and `float()`. -/
def isSpaceChar (c : Char) : Bool :=
  c = ' ' || c = '\t' || c = '\n' || c = '\r' || c = '\x0b' || c = '\x0c'

/-- Strip leading whitespace. -/
def ltrim (l : List Char) : List Char := l.dropWhile isSpaceChar

/-- Strip trailing whitespace. -/
def rtrim (l : List Char) : List Char := (l.reverse.dropWhile isSpaceChar).reverse

/-- Strip surrounding whitespace, as Python `str.strip()`. -/
def trim (l : List Char) : List Char := rtrim (ltrim l)

/-- Numeric value of a digit string (most significant first). -/
def natOfDigits (l : List Char) : Nat := l.foldl (fun a c => 10 * a + (c.toNat - 48)) 0

/-- Parse an unsigned mantissa `digits [. digits]` (at least one digit
overall), returning its value and the unconsumed remainder. -/
def parseMantissa (l : List Char) : Option (Rat × List Char) :=
  let ip := l.takeWhile Char.isDigit
  let r1 := l.dropWhile Char.isDigit
  match r1 with
  | '.' :: t =>
    let fp := t.takeWhile Char.isDigit
    let r2 := t.dropWhile Char.isDigit
    if ip.isEmpty && fp.isEmpty then none
    else some ((natOfDigits ip : Rat) + (natOfDigits fp : Rat) / (10 : Rat) ^ fp.length, r2)
  | _ => if ip.isEmpty then none else some ((natOfDigits ip : Rat), r1)

/-- Parse a signed decimal literal with optional exponent; `none` models the
`ValueError` raised by Python's `float` on invalid input. -/
def parsePyFloatCore (l : List Char) : Option Rat :=
  let sl : Rat × List Char :=
    match l with
    | '+' :: t => (1, t)
    | '-' :: t => (-1, t)
    | _ => (1, l)
  match parseMantissa sl.2 with
  | none => none
  | some (m, r) =>
    match r with
    | [] => some (sl.1 * m)
    | c :: t =>
      if c = 'e' || c = 'E' then
        let et : Int × List Char :=
          match t with
          | '+' :: u => (1, u)
          | '-' :: u => (-1, u)
          | _ => (1, t)
        let ed := et.2.takeWhile Char.isDigit
        if et.2.dropWhile Char.isDigit = [] ∧ ed ≠ [] then
          some (sl.1 * m * (10 : Rat) ^ (et.1 * (natOfDigits ed : Int)))
        else none
      else none

/-- Python's `float : str → float` on the decimal fragment (it strips
surrounding whitespace itself). -/
def pyFloat (l : List Char) : Option Rat := parsePyFloatCore (trim l)

/-! ### The coordinate normalizer `_to_float` -/

/-- A raw cell of the `Latitude`/`Longitude` column: pandas hands `_to_float`
either an already numeric value (`int`/`float`/`np.number`) or a string. -/
inductive RawVal where
  | num (q : Rat)
  | str (s : List Char)
deriving DecidableEq

/-- `_to_float` (app.py lines 44-53): numeric values pass through; strings are
stripped, a final `N`/`S`/`E`/`W` selects the sign (`-1` for `S`/`W`) and is
removed, and the rest is converted with `float`, whose failure (`none`)
aborts the run. -/
def to_float (x : RawVal) : Option Rat :=
  match x with
  | RawVal.num q => some q
  | RawVal.str s0 =>
    let s := trim s0
    match s.getLast? with
    | some c =>
      if c = 'N' ∨ c = 'S' ∨ c = 'E' ∨ c = 'W' then
        let mult : Rat := if c = 'S' ∨ c = 'W' then -1 else 1
        (pyFloat s.dropLast).map (fun v => v * mult)
      else pyFloat s
    | none => pyFloat s

/-! ### Dates -/

/-- `pd.to_datetime(..., errors="coerce")` on the ISO `YYYY-MM-DD` strings of
the `dt` column, encoded as `y*10000 + m*100 + d`; any other shape coerces to
`none` (`NaT`). -/
def parseDate (l : List Char) : Option Nat :=
  let t := trim l
  let ys := t.takeWhile Char.isDigit
  let r1 := t.dropWhile Char.isDigit
  if ys.length = 4 then
    match r1 with
    | '-' :: r2 =>
      let ms := r2.takeWhile Char.isDigit
      let r3 := r2.dropWhile Char.isDigit
      if 1 ≤ ms.length ∧ ms.length ≤ 2 then
        match r3 with
        | '-' :: r4 =>
          let ds := r4.takeWhile Char.isDigit
          let r5 := r4.dropWhile Char.isDigit
          if (1 ≤ ds.length ∧ ds.length ≤ 2) ∧ r5 = [] then
            let m := natOfDigits ms
            let d := natOfDigits ds
            if (1 ≤ m ∧ m ≤ 12) ∧ (1 ≤ d ∧ d ≤ 31) then
              some (natOfDigits ys * 10000 + m * 100 + d)
            else none
          else none
        | _ => none
      else none
    | _ => none
  else none

/-! ### Rows and the body of `load_data` -/

/-- One input row as `pd.read_csv` delivers it: textual `dt` and temperature
cells, `City`/`Country` strings (or missing, i.e. NaN), and coordinate cells
that are either numeric or strings (or missing). -/
structure RawRow where
  dt : List Char
  avgTemp : List Char
  avgTempUnc : List Char
  city : Option String
  country : Option String
  latRaw : Option RawVal
  lonRaw : Option RawVal
deriving DecidableEq

/-- A row after the three coercions of lines 39-41: failed parses are absent
(`none`), never errors. -/
structure CoercedRow where
  dt : Option Nat
  avgTemp : Option Rat
  avgTempUnc : Option Rat
  city : Option String
  country : Option String
  latRaw : Option RawVal
  lonRaw : Option RawVal
deriving DecidableEq

/-- Lines 39-41: `pd.to_datetime` / `pd.to_numeric` with `errors="coerce"`. -/
def coerceRow (r : RawRow) : CoercedRow :=
  { dt := parseDate r.dt
  , avgTemp := pyFloat r.avgTemp
  , avgTempUnc := pyFloat r.avgTempUnc
  , city := r.city
  , country := r.country
  , latRaw := r.latRaw
  , lonRaw := r.lonRaw }

/-- The coercion stage is a per-row map over the frame. -/
def coerceAll (rows : List RawRow) : List CoercedRow := rows.map coerceRow

/-- A row surviving `dropna(subset=["dt", "AverageTemperature", "Latitude",
"Longitude", "City", "Country"])`; note `AverageTemperatureUncertainty` is not
in the subset and stays optional. -/
structure PreRow where
  dt : Nat
  avgTemp : Rat
  avgTempUnc : Option Rat
  city : String
  country : String
  latRaw : RawVal
  lonRaw : RawVal
deriving DecidableEq

/-- Keep a row iff every field of the `dropna` subset is present. -/
def dropnaStep (r : CoercedRow) : Option PreRow :=
  match r.dt, r.avgTemp, r.city, r.country, r.latRaw, r.lonRaw with
  | some d, some t, some ci, some co, some la, some lo =>
    some { dt := d, avgTemp := t, avgTempUnc := r.avgTempUnc
         , city := ci, country := co, latRaw := la, lonRaw := lo }
  | _, _, _, _, _, _ => none

/-- Line 42: `df.dropna(subset=[...])`. -/
def dropna (rows : List CoercedRow) : List PreRow := rows.filterMap dropnaStep

/-- A clean record as returned by `load_data`: coordinates are signed degrees. -/
structure CRow where
  dt : Nat
  avgTemp : Rat
  avgTempUnc : Option Rat
  city : String
  country : String
  lat : Rat
  lon : Rat
deriving DecidableEq

/-- The required column set of lines 26-34. -/
def requiredCols : List String :=
  ["dt", "AverageTemperature", "AverageTemperatureUncertainty",
   "City", "Country", "Latitude", "Longitude"]

/-- Line 35: `expected - set(df.columns)`. -/
def missingCols (cols : List String) : List String :=
  requiredCols.filter (fun c => decide (c ∉ cols))

/-- The structural failures `load_data` can raise: the `ValueError` for
missing columns (line 37) and the `ValueError` of `float` escaping
`_to_float` on a malformed coordinate (line 53). -/
inductive LoadErr where
  | missingColumns (missing : List String)
  | invalidCoordinate (raw : RawVal)
deriving DecidableEq

/-- One cell of `.apply(_to_float)`: an unparseable coordinate raises. -/
def ofCoord (v : RawVal) : Except LoadErr Rat :=
  match to_float v with
  | some q => Except.ok q
  | none => Except.error (LoadErr.invalidCoordinate v)

/-- Effectful column map: the first failing cell aborts, in row order, as a
raising `Series.apply` does. -/
def exMapM (f : α → Except LoadErr β) : List α → Except LoadErr (List β)
  | [] => Except.ok []
  | x :: xs =>
    match f x with
    | Except.error e => Except.error e
    | Except.ok b =>
      match exMapM f xs with
      | Except.error e => Except.error e
      | Except.ok bs => Except.ok (b :: bs)

/-- Reassemble the frame from the kept rows and the two converted columns. -/
def mkClean (kept : List PreRow) (lats lons : List Rat) : List CRow :=
  (kept.zip (lats.zip lons)).map (fun p =>
    { dt := p.1.dt, avgTemp := p.1.avgTemp, avgTempUnc := p.1.avgTempUnc
    , city := p.1.city, country := p.1.country
    , lat := p.2.1, lon := p.2.2 })

/-- Line 58: `df.sort_values("dt")`. -/
def sortByDt (rows : List CRow) : List CRow :=
  List.insertionSort (fun a b => a.dt ≤ b.dt) rows

/-- The body of `load_data` after `pd.read_csv` (lines 26-59): schema check
first, then coercion, `dropna`, the two coordinate columns, and the sort. -/
def loadData (cols : List String) (rows : List RawRow) : Except LoadErr (List CRow) :=
  if missingCols cols ≠ [] then Except.error (LoadErr.missingColumns (missingCols cols))
  else
    let kept := dropna (coerceAll rows)
    match exMapM (fun r => ofCoord r.latRaw) kept with
    | Except.error e => Except.error e
    | Except.ok lats =>
      match exMapM (fun r => ofCoord r.lonRaw) kept with
      | Except.error e => Except.error e
      | Except.ok lons => Except.ok (sortByDt (mkClean kept lats lons))

/-! ### The module-level pipeline: clamp, binning, aggregation, color range -/

/-- Line 13. -/
def TIME_STEP : String := "Yearly"

/-- Line 14. -/
def USE_GLOBAL_COLOR_SCALE : Bool := true

/-- Line 69: keep rows with `"1743-01-01" <= dt <= "2013-12-31"` (inclusive). -/
def rangeFilter (rows : List CRow) : List CRow :=
  rows.filter (fun r => decide (17430101 ≤ r.dt ∧ r.dt ≤ 20131231))

/-- Decimal digit character. -/
def digitChar (d : Nat) : Char := Char.ofNat (48 + d)

/-- Decimal string of a natural number, most significant digit first; the
first argument is recursion fuel (any value above the number works). -/
def natStrAux : Nat → Nat → List Char
  | 0, _ => []
  | fuel + 1, n =>
    if n < 10 then [digitChar n]
    else natStrAux fuel (n / 10) ++ [digitChar (n % 10)]

/-- Python's `str` on a natural number. -/
def natStr (n : Nat) : List Char := natStrAux (n + 1) n

/-- `str(year)`, the yearly `t_label` of line 77. -/
def yearString (n : Nat) : String := String.mk (natStr n)

/-- Two-digit zero-padded month, for the monthly `"%Y-%m"` label of line 80. -/
def pad2 (n : Nat) : List Char := if n < 10 then '0' :: natStr n else natStr n

/-- A row after temporal binning: `t` is `period_start`, `label` is `t_label`. -/
structure BRow where
  t : Nat
  label : String
  avgTemp : Rat
  avgTempUnc : Option Rat
  city : String
  country : String
  lat : Rat
  lon : Rat
deriving DecidableEq

/-- Lines 75-80: yearly buckets start at January 1st and are labelled
`str(year)`; monthly buckets start at the 1st and are labelled `"YYYY-MM"`. -/
def binRow (r : CRow) : BRow :=
  if TIME_STEP = "Yearly" then
    { t := r.dt / 10000 * 10000 + 101
    , label := yearString (r.dt / 10000)
    , avgTemp := r.avgTemp, avgTempUnc := r.avgTempUnc
    , city := r.city, country := r.country, lat := r.lat, lon := r.lon }
  else
    { t := r.dt / 100 * 100 + 1
    , label := String.mk (natStr (r.dt / 10000) ++ '-' :: pad2 (r.dt / 100 % 10))
    , avgTemp := r.avgTemp, avgTempUnc := r.avgTempUnc
    , city := r.city, country := r.country, lat := r.lat, lon := r.lon }

/-- The groupby key `(t_label, City, Country)`, ordered as pandas orders
tuples of strings: lexicographically. -/
abbrev AKey := Lex (String × Lex (String × String))

/-- Key of a binned row. -/
def rowKey (r : BRow) : AKey := toLex (r.label, toLex (r.city, r.country))

/-- The distinct group keys in ascending order (pandas `groupby` sorts its
keys by default). -/
def keysOf (rows : List BRow) : List AKey :=
  List.insertionSort (fun a b => a ≤ b) (rows.map rowKey).dedup

/-- The rows of one group. -/
def groupFor (rows : List BRow) (k : AKey) : List BRow :=
  rows.filter (fun r => decide (rowKey r = k))

/-- Arithmetic mean. -/
def mean (l : List Rat) : Rat := l.sum / (l.length : Rat)

/-- Mean of the present values, absent if none are (pandas `mean` skips NaN
and yields NaN for an all-NaN group). -/
def meanOpt (l : List Rat) : Option Rat := if l = [] then none else some (mean l)

/-- One aggregated output record. -/
structure AggRow where
  label : String
  city : String
  country : String
  avgTemp : Rat
  avgTempUnc : Option Rat
  lat : Rat
  lon : Rat
deriving DecidableEq

/-- The record aggregated from one group. -/
def buildAgg (rows : List BRow) (k : AKey) : AggRow :=
  { label := (ofLex k).1
  , city := (ofLex (ofLex k).2).1
  , country := (ofLex (ofLex k).2).2
  , avgTemp := mean ((groupFor rows k).map (fun r => r.avgTemp))
  , avgTempUnc := meanOpt ((groupFor rows k).filterMap (fun r => r.avgTempUnc))
  , lat := mean ((groupFor rows k).map (fun r => r.lat))
  , lon := mean ((groupFor rows k).map (fun r => r.lon)) }

/-- Lines 83-91: group by `(t_label, City, Country)` and take means, output
ordered by the sorted keys. -/
def aggregate (rows : List BRow) : List AggRow := (keysOf rows).map (buildAgg rows)

/-- `np.round` ties-to-even integer rounding (`rint`). -/
def rintHalfEven (q : Rat) : Int :=
  let f := q.floor
  if q - (f : Rat) < 1/2 then f
  else if (1 : Rat)/2 < q - (f : Rat) then f + 1
  else if f % 2 = 0 then f else f + 1

/-- `Series.round(1)`: scale by ten, round half to even, unscale. -/
def round1 (q : Rat) : Rat := (rintHalfEven (q * 10) : Rat) / 10

/-- Lines 93-94: round the two temperature means to one decimal. -/
def roundAgg (l : List AggRow) : List AggRow :=
  l.map (fun r => { r with avgTemp := round1 r.avgTemp
                         , avgTempUnc := r.avgTempUnc.map round1 })

/-- The module-level pipeline from `load_data`'s output to the aggregated
frame (lines 69-94). -/
def pipelineAgg (rows : List CRow) : List AggRow :=
  roundAgg (aggregate ((rangeFilter rows).map binRow))

/-- `min` of a pandas numeric column (`none` only for an empty frame). -/
def colMin : List Rat → Option Rat
  | [] => none
  | x :: xs => some (xs.foldl min x)

/-- `max` of a pandas numeric column. -/
def colMax : List Rat → Option Rat
  | [] => none
  | x :: xs => some (xs.foldl max x)

/-- Lines 101-107: the global color range, or `None` when per-frame scaling
is left to the consumer. -/
def colorRange (useGlobal : Bool) (agg : List AggRow) : Option (Rat × Rat) :=
  if useGlobal then
    match colMin (agg.map (fun r => r.avgTemp)), colMax (agg.map (fun r => r.avgTemp)) with
    | some lo, some hi => some (lo, hi)
    | _, _ => none
  else none

/-- Decimal value of a label, to state chronological order of year labels. -/
def yearVal (s : String) : Nat := s.data.foldl (fun a c => 10 * a + (c.toNat - 48)) 0

/-! ### Lemmas: whitespace stripping -/

theorem dropWhile_dropWhile (p : Char → Bool) (l : List Char) :
    (l.dropWhile p).dropWhile p = l.dropWhile p := by
  induction l with
  | nil => rfl
  | cons a t ih =>
    cases h : p a with
    | true => simp [List.dropWhile_cons, h, ih]
    | false => simp [List.dropWhile_cons, h]

theorem ltrim_ltrim (l : List Char) : ltrim (ltrim l) = ltrim l :=
  dropWhile_dropWhile _ _

theorem rtrim_rtrim (l : List Char) : rtrim (rtrim l) = rtrim l := by
  simp [rtrim, dropWhile_dropWhile]

theorem ltrim_rtrim (l : List Char) (h : ltrim l = l) : ltrim (rtrim l) = rtrim l := by
  cases l with
  | nil => rfl
  | cons a t =>
    have ha : isSpaceChar a = false := by
      cases hx : isSpaceChar a with
      | false => rfl
      | true =>
        exfalso
        have h2 : ltrim (a :: t) = ltrim t := by simp [ltrim, List.dropWhile_cons, hx]
        rw [h] at h2
        have h3 : (ltrim t).length ≤ t.length := (List.dropWhile_sublist _).length_le
        have h4 := congrArg List.length h2
        simp only [List.length_cons] at h4
        omega
    unfold rtrim
    rw [List.reverse_cons, List.dropWhile_append]
    cases hw : (List.dropWhile isSpaceChar t.reverse).isEmpty with
    | true => simp [ltrim, List.dropWhile_cons, ha]
    | false => simp [ltrim, List.dropWhile_cons, ha]

theorem trim_trim (l : List Char) : trim (trim l) = trim l := by
  unfold trim
  rw [ltrim_rtrim (ltrim l) (ltrim_ltrim l), rtrim_rtrim]

theorem trim_ltrim (l : List Char) : trim (ltrim l) = trim l := by
  unfold trim
  rw [ltrim_ltrim]

theorem pyFloat_ltrim (l : List Char) : pyFloat (ltrim l) = pyFloat l := by
  unfold pyFloat
  rw [trim_ltrim]

theorem pyFloat_trim (l : List Char) : pyFloat (trim l) = pyFloat l := by
  unfold pyFloat
  rw [trim_trim]

theorem trim_concat_of_not_space (s : List Char) (c : Char) (hc : isSpaceChar c = false) :
    trim (s ++ [c]) = ltrim s ++ [c] := by
  unfold trim
  have h1 : ltrim (s ++ [c]) = ltrim s ++ [c] := by
    unfold ltrim
    rw [List.dropWhile_append]
    cases hw : (List.dropWhile isSpaceChar s).isEmpty with
    | true =>
      have : List.dropWhile isSpaceChar s = [] := by simpa using hw
      simp [this, List.dropWhile_cons, hc]
    | false => simp
  rw [h1]
  simp [rtrim, List.dropWhile_cons, hc]

/-! ### Lemmas: the coordinate normalizer -/

theorem to_float_of_getLast_some {s0 : List Char} {c : Char}
    (hg : (trim s0).getLast? = some c) :
    to_float (RawVal.str s0)
      = if c = 'N' ∨ c = 'S' ∨ c = 'E' ∨ c = 'W'
        then (pyFloat (trim s0).dropLast).map
              (fun v => v * (if c = 'S' ∨ c = 'W' then (-1 : Rat) else 1))
        else pyFloat (trim s0) := by
  simp only [to_float, hg]

theorem to_float_of_getLast_none {s0 : List Char}
    (hg : (trim s0).getLast? = none) :
    to_float (RawVal.str s0) = pyFloat (trim s0) := by
  simp only [to_float, hg]

theorem to_float_suffix (s : List Char) (c : Char)
    (hc : c = 'N' ∨ c = 'S' ∨ c = 'E' ∨ c = 'W') :
    to_float (RawVal.str (s ++ [c]))
      = (pyFloat s).map (fun v => v * (if c = 'S' ∨ c = 'W' then (-1 : Rat) else 1)) := by
  have hsp : isSpaceChar c = false := by rcases hc with h | h | h | h <;> subst h <;> rfl
  have ht := trim_concat_of_not_space s c hsp
  have hg : (trim (s ++ [c])).getLast? = some c := by
    rw [ht, List.getLast?_concat]
  rw [to_float_of_getLast_some hg, if_pos hc, ht, List.dropLast_concat, pyFloat_ltrim]

theorem to_float_no_suffix (s : List Char)
    (h : ∀ c, (trim s).getLast? = some c → ¬(c = 'N' ∨ c = 'S' ∨ c = 'E' ∨ c = 'W')) :
    to_float (RawVal.str s) = pyFloat s := by
  cases hg : (trim s).getLast? with
  | none => rw [to_float_of_getLast_none hg, pyFloat_trim]
  | some c => rw [to_float_of_getLast_some hg, if_neg (h c hg), pyFloat_trim]

/-- C1: a textual coordinate `"{d}N"` normalizes to `+d`, `"{d}S"` to `-d`,
`"{d}E"` to `+d`, `"{d}W"` to `-d`, and an already numeric value passes
through unchanged as the signed degree value. -/
theorem toFloat_hemisphere_spec (q d : Rat) (s : List Char) (h : pyFloat s = some d) :
    to_float (RawVal.num q) = some q
    ∧ to_float (RawVal.str (s ++ ['N'])) = some d
    ∧ to_float (RawVal.str (s ++ ['S'])) = some (-d)
    ∧ to_float (RawVal.str (s ++ ['E'])) = some d
    ∧ to_float (RawVal.str (s ++ ['W'])) = some (-d) := by
  refine ⟨rfl, ?_, ?_, ?_, ?_⟩
  · rw [to_float_suffix s 'N' (by decide), h]
    simp only [Option.map_some']
    rw [if_neg (by decide), mul_one]
  · rw [to_float_suffix s 'S' (by decide), h]
    simp only [Option.map_some']
    rw [if_pos (by decide), mul_neg_one]
  · rw [to_float_suffix s 'E' (by decide), h]
    simp only [Option.map_some']
    rw [if_neg (by decide), mul_one]
  · rw [to_float_suffix s 'W' (by decide), h]
    simp only [Option.map_some']
    rw [if_pos (by decide), mul_neg_one]

theorem toFloat_hemisphere_spec_witness :
    to_float (RawVal.str ("45.5".data ++ ['S'])) = some (-((91 : Rat)/2)) :=
  (toFloat_hemisphere_spec 3 ((91 : Rat)/2) "45.5".data (by with_unfolding_all decide)).2.2.1

/-! ### C2: the range filter -/

/-- C2 counterexample: the range filter (line 69) checks only `dt`; a record
with latitude and longitude 200 — outside `[-90, 90]` and `[-180, 180]` —
survives it and reaches the aggregation stage, so the claimed latitude and
longitude bounds do not hold. -/
theorem rangeFilter_latlon_unbounded_cex :
    ({ dt := 19000101, avgTemp := 0, avgTempUnc := none
     , city := "A", country := "B", lat := 200, lon := 200 } : CRow) ∈
      rangeFilter [{ dt := 19000101, avgTemp := 0, avgTempUnc := none
                   , city := "A", country := "B", lat := 200, lon := 200 }]
    ∧ ¬((200 : Rat) ≤ 90) ∧ ¬((200 : Rat) ≤ 180) :=
  ⟨List.mem_filter.mpr ⟨by simp, by decide⟩, by norm_num, by norm_num⟩

/-- C2 (amended): every record surviving the range filter has `dt` in the
inclusive interval `[1743-01-01, 2013-12-31]`; the filter imposes no bound at
all on latitude or longitude. -/
theorem rangeFilter_dt_bounds (rows : List CRow) (r : CRow)
    (hr : r ∈ rangeFilter rows) :
    17430101 ≤ r.dt ∧ r.dt ≤ 20131231 := by
  have h := List.mem_filter.mp hr
  simpa using h.2

theorem rangeFilter_dt_bounds_witness :
    17430101 ≤ (19000101 : Nat) ∧ (19000101 : Nat) ≤ 20131231 :=
  rangeFilter_dt_bounds
    [{ dt := 19000101, avgTemp := 0, avgTempUnc := none
     , city := "A", country := "B", lat := 200, lon := 200 }]
    { dt := 19000101, avgTemp := 0, avgTempUnc := none
    , city := "A", country := "B", lat := 200, lon := 200 }
    (List.mem_filter.mpr ⟨by simp, by decide⟩)

/-! ### C6: lenient coercion -/

/-- C6: the coercion stage (lines 39-41) is a total per-row map — it cannot
raise; an unparseable `dt`, `AverageTemperature` or
`AverageTemperatureUncertainty` value becomes absent (`none`), and the other
rows of the run are mapped exactly as they would be without the bad row. -/
theorem coerce_absent_on_failure (pre post : List RawRow) (x : RawRow)
    (h : parseDate x.dt = none) :
    coerceAll (pre ++ x :: post) = coerceAll pre ++ coerceRow x :: coerceAll post
    ∧ (coerceRow x).dt = none
    ∧ (∀ r : RawRow, pyFloat r.avgTemp = none → (coerceRow r).avgTemp = none)
    ∧ (∀ r : RawRow, pyFloat r.avgTempUnc = none → (coerceRow r).avgTempUnc = none) :=
  ⟨by simp [coerceAll], by simp [coerceRow, h],
   fun r hr => by simp [coerceRow, hr], fun r hr => by simp [coerceRow, hr]⟩

theorem coerce_absent_on_failure_witness :
    (coerceRow { dt := "not-a-date".data, avgTemp := "x".data, avgTempUnc := "x".data
               , city := some "A", country := some "B"
               , latRaw := none, lonRaw := none }).dt = none :=
  (coerce_absent_on_failure [] [] _ (by decide)).2.1

/-! ### Lemmas: errors escaping the coordinate columns -/

theorem ofCoord_error {x : RawVal} {e : LoadErr} (h : ofCoord x = Except.error e) :
    e = LoadErr.invalidCoordinate x := by
  cases ht : to_float x with
  | some q =>
    simp only [ofCoord, ht] at h
    exact Except.noConfusion h
  | none =>
    simp only [ofCoord, ht, Except.error.injEq] at h
    exact h.symm

theorem exMapM_ofCoord_shape (g : PreRow → RawVal) (l : List PreRow) {e : LoadErr}
    (h : exMapM (fun r => ofCoord (g r)) l = Except.error e) :
    ∃ v, e = LoadErr.invalidCoordinate v := by
  induction l with
  | nil => simp [exMapM] at h
  | cons a t ih =>
    simp only [exMapM] at h
    cases hfa : ofCoord (g a) with
    | error e0 =>
      simp only [hfa, Except.error.injEq] at h
      subst h
      exact ⟨g a, ofCoord_error hfa⟩
    | ok b =>
      simp only [hfa] at h
      cases h2 : exMapM (fun r => ofCoord (g r)) t with
      | error e1 =>
        simp only [h2, Except.error.injEq] at h
        subst h
        exact ih h2
      | ok bs => simp only [h2] at h; exact Except.noConfusion h

theorem exMapM_lat_error (l : List PreRow)
    (h : ∃ p ∈ l, to_float p.latRaw = none) :
    ∃ v, exMapM (fun r => ofCoord r.latRaw) l
          = Except.error (LoadErr.invalidCoordinate v) := by
  induction l with
  | nil => simp at h
  | cons a t ih =>
    by_cases ha : to_float a.latRaw = none
    · have hoa : ofCoord a.latRaw
          = Except.error (LoadErr.invalidCoordinate a.latRaw) := by
        simp [ofCoord, ha]
      exact ⟨a.latRaw, by simp only [exMapM, hoa]⟩
    · obtain ⟨p, hp, hpn⟩ := h
      rcases List.mem_cons.mp hp with rfl | hpt
      · exact absurd hpn ha
      · obtain ⟨q, hq⟩ := Option.ne_none_iff_exists'.mp ha
        have hoa : ofCoord a.latRaw = Except.ok q := by simp [ofCoord, hq]
        obtain ⟨v, hv⟩ := ih ⟨p, hpt, hpn⟩
        exact ⟨v, by simp only [exMapM, hoa, hv]⟩

theorem loadData_error_of_bad_lat (cols : List String) (rows : List RawRow)
    (hmiss : missingCols cols = [])
    (h : ∃ p ∈ dropna (coerceAll rows), to_float p.latRaw = none) :
    ∃ v, loadData cols rows = Except.error (LoadErr.invalidCoordinate v) := by
  obtain ⟨v, hv⟩ := exMapM_lat_error _ h
  refine ⟨v, ?_⟩
  simp only [loadData, hmiss]
  rw [if_neg (by simp)]
  simp only [hv]

/-! ### C5: schema validation -/

/-- C5: the schema check fails exactly when the set difference of the
required fields against the source's columns is non-empty, the failure
carries exactly that set of missing names, and it happens before any
row-level processing: when columns are missing, `loadData` returns the
`MissingColumns` error no matter what the rows contain; when none are
missing, no `MissingColumns` error can be produced. -/
theorem loadData_missing_columns_iff (cols : List String) (rows : List RawRow) :
    (∀ c, c ∈ missingCols cols ↔ (c ∈ requiredCols ∧ c ∉ cols))
    ∧ (missingCols cols ≠ [] →
        loadData cols rows = Except.error (LoadErr.missingColumns (missingCols cols)))
    ∧ (missingCols cols = [] →
        ∀ e, loadData cols rows ≠ Except.error (LoadErr.missingColumns e)) := by
  refine ⟨?_, ?_, ?_⟩
  · intro c
    simp [missingCols, List.mem_filter]
  · intro hne
    simp only [loadData]
    rw [if_pos hne]
  · intro hm e hcontra
    simp only [loadData, hm] at hcontra
    rw [if_neg (by simp)] at hcontra
    cases h1 : exMapM (fun r => ofCoord r.latRaw) (dropna (coerceAll rows)) with
    | error e1 =>
      simp only [h1, Except.error.injEq] at hcontra
      obtain ⟨v, hv⟩ := exMapM_ofCoord_shape _ _ h1
      exact LoadErr.noConfusion (hv.symm.trans hcontra)
    | ok lats =>
      simp only [h1] at hcontra
      cases h2 : exMapM (fun r => ofCoord r.lonRaw) (dropna (coerceAll rows)) with
      | error e2 =>
        simp only [h2, Except.error.injEq] at hcontra
        obtain ⟨v, hv⟩ := exMapM_ofCoord_shape _ _ h2
        exact LoadErr.noConfusion (hv.symm.trans hcontra)
      | ok lons =>
        simp only [h2] at hcontra
        exact Except.noConfusion hcontra

theorem loadData_missing_columns_iff_witness :
    loadData ["dt"] [] = Except.error (LoadErr.missingColumns (missingCols ["dt"])) :=
  (loadData_missing_columns_iff ["dt"] []).2.1 (by decide)

/-! ### C7: a malformed hemisphere-suffixed coordinate is fatal -/

/-- C7: a textual coordinate ending in `N`/`S`/`E`/`W` whose remainder is not
a valid number makes the normalizer fail (`none`, the escaping
`ValueError`), and a run whose kept rows contain such a `Latitude` value
halts with an `InvalidCoordinate` error instead of quarantining the value as
absent. -/
theorem toFloat_bad_suffix_fatal (s : List Char) (c : Char)
    (hc : c = 'N' ∨ c = 'S' ∨ c = 'E' ∨ c = 'W')
    (hbad : pyFloat s = none)
    (cols : List String) (rows : List RawRow)
    (hmiss : missingCols cols = [])
    (hr : ∃ p ∈ dropna (coerceAll rows), p.latRaw = RawVal.str (s ++ [c])) :
    to_float (RawVal.str (s ++ [c])) = none
    ∧ ∃ v, loadData cols rows = Except.error (LoadErr.invalidCoordinate v) := by
  have h1 : to_float (RawVal.str (s ++ [c])) = none := by
    rw [to_float_suffix s c hc, hbad]
    rfl
  refine ⟨h1, loadData_error_of_bad_lat cols rows hmiss ?_⟩
  obtain ⟨p, hp, he⟩ := hr
  exact ⟨p, hp, by rw [he, h1]⟩

theorem toFloat_bad_suffix_fatal_witness :
    to_float (RawVal.str ("abc".data ++ ['N'])) = none :=
  (toFloat_bad_suffix_fatal "abc".data 'N' (by decide) (by decide)
    requiredCols
    [{ dt := "1900-01-01".data, avgTemp := "1.0".data, avgTempUnc := "1.0".data
     , city := some "A", country := some "B"
     , latRaw := some (RawVal.str "abcN".data), lonRaw := some (RawVal.num 0) }]
    (by decide)
    (by with_unfolding_all decide)).1

/-! ### C9: plain textual coordinates -/

/-- C9: a textual coordinate whose (stripped) final character is not one of
`N`/`S`/`E`/`W` is parsed whole by `float`, whitespace stripped; an
unparseable value — including the empty string and a lone suffix letter —
yields `none` (the escaping `ValueError`), and a run whose kept rows carry
such an unparseable `Latitude` halts with an `InvalidCoordinate` error
rather than recording an absent value. -/
theorem toFloat_plain_string_parse (s : List Char)
    (h : ∀ c, (trim s).getLast? = some c → ¬(c = 'N' ∨ c = 'S' ∨ c = 'E' ∨ c = 'W')) :
    to_float (RawVal.str s) = pyFloat s
    ∧ to_float (RawVal.str []) = none
    ∧ to_float (RawVal.str ['N']) = none
    ∧ (∀ cols rows, missingCols cols = [] →
        (∃ p ∈ dropna (coerceAll rows), to_float p.latRaw = none) →
        ∃ v, loadData cols rows = Except.error (LoadErr.invalidCoordinate v)) := by
  refine ⟨to_float_no_suffix s h, by decide, ?_, ?_⟩
  · show to_float (RawVal.str ['N']) = none
    decide
  · intro cols rows hmiss hbad
    exact loadData_error_of_bad_lat cols rows hmiss hbad

theorem toFloat_plain_string_parse_witness :
    to_float (RawVal.str "12.5".data) = pyFloat "12.5".data :=
  (toFloat_plain_string_parse "12.5".data (by
    intro c hc
    have h5 : (trim "12.5".data).getLast? = some '5' := by decide
    rw [h5] at hc
    have h6 := Option.some.inj hc
    subst h6
    decide)).1

/-! ### Lemmas: decimal year labels and their order -/

theorem digitChar_lt_digitChar {a b : Nat} (ha : a < 10) (hb : b < 10) :
    (digitChar a < digitChar b) ↔ a < b := by
  interval_cases a <;> interval_cases b <;> decide

theorem digitChar_inj {a b : Nat} (ha : a < 10) (hb : b < 10) :
    (digitChar a = digitChar b) ↔ a = b := by
  interval_cases a <;> interval_cases b <;> decide

theorem digitChar_toNat {a : Nat} (ha : a < 10) : (digitChar a).toNat = 48 + a := by
  interval_cases a <;> decide

theorem natStrAux_four {n : Nat} (h1 : 1000 ≤ n) (h2 : n < 10000) (g : Nat) :
    natStrAux (g + 4) n
      = [digitChar (n / 1000), digitChar (n / 100 % 10),
         digitChar (n / 10 % 10), digitChar (n % 10)] := by
  have e1 : ¬ n < 10 := by omega
  have e2 : ¬ n / 10 < 10 := by omega
  have e3 : ¬ n / 10 / 10 < 10 := by omega
  have e4 : n / 10 / 10 / 10 < 10 := by omega
  simp only [natStrAux, if_neg e1, if_neg e2, if_neg e3, if_pos e4]
  have d3 : n / 10 / 10 / 10 = n / 1000 := by omega
  have d2 : n / 10 / 10 = n / 100 := by omega
  rw [d3, d2]
  simp

theorem natStr_four {n : Nat} (h1 : 1000 ≤ n) (h2 : n < 10000) :
    natStr n = [digitChar (n / 1000), digitChar (n / 100 % 10),
                digitChar (n / 10 % 10), digitChar (n % 10)] := by
  have hn : n + 1 = (n - 3) + 4 := by omega
  rw [natStr, hn, natStrAux_four h1 h2]

theorem char_list_lt_cons {a b : Char} {as bs : List Char} :
    (a :: as) < (b :: bs) ↔ a < b ∨ (a = b ∧ as < bs) := by
  constructor
  · intro h
    cases h with
    | rel hab => exact Or.inl hab
    | cons h3 => exact Or.inr ⟨rfl, h3⟩
  · rintro (hab | ⟨rfl, h⟩)
    · exact List.Lex.rel hab
    · exact List.Lex.cons h

theorem yearString_lt_iff {y1 y2 : Nat}
    (h11 : 1000 ≤ y1) (h12 : y1 < 10000) (h21 : 1000 ≤ y2) (h22 : y2 < 10000) :
    (yearString y1 < yearString y2) ↔ y1 < y2 := by
  rw [yearString, yearString, String.lt_iff_toList_lt]
  show natStr y1 < natStr y2 ↔ y1 < y2
  rw [natStr_four h11 h12, natStr_four h21 h22]
  rw [char_list_lt_cons, char_list_lt_cons, char_list_lt_cons, char_list_lt_cons]
  rw [digitChar_lt_digitChar (show y1 / 1000 < 10 by omega) (show y2 / 1000 < 10 by omega),
      digitChar_inj (show y1 / 1000 < 10 by omega) (show y2 / 1000 < 10 by omega),
      digitChar_lt_digitChar (show y1 / 100 % 10 < 10 by omega)
        (show y2 / 100 % 10 < 10 by omega),
      digitChar_inj (show y1 / 100 % 10 < 10 by omega) (show y2 / 100 % 10 < 10 by omega),
      digitChar_lt_digitChar (show y1 / 10 % 10 < 10 by omega)
        (show y2 / 10 % 10 < 10 by omega),
      digitChar_inj (show y1 / 10 % 10 < 10 by omega) (show y2 / 10 % 10 < 10 by omega),
      digitChar_lt_digitChar (show y1 % 10 < 10 by omega) (show y2 % 10 < 10 by omega),
      digitChar_inj (show y1 % 10 < 10 by omega) (show y2 % 10 < 10 by omega)]
  have hnil : ¬ (([] : List Char) < ([] : List Char)) := fun h => by cases h
  rw [eq_false hnil]
  simp only [and_false, or_false]
  omega

theorem yearVal_yearString {y : Nat} (h1 : 1000 ≤ y) (h2 : y < 10000) :
    yearVal (yearString y) = y := by
  show (natStr y).foldl (fun a c => 10 * a + (c.toNat - 48)) 0 = y
  rw [natStr_four h1 h2]
  simp only [List.foldl_cons, List.foldl_nil]
  rw [digitChar_toNat (show y / 1000 < 10 by omega),
      digitChar_toNat (show y / 100 % 10 < 10 by omega),
      digitChar_toNat (show y / 10 % 10 < 10 by omega),
      digitChar_toNat (show y % 10 < 10 by omega)]
  omega

/-! ### Lemmas: the aggregation stage -/

/-- The `(t_label, City, Country)` key carried by an output record. -/
def aggKey (r : AggRow) : AKey := toLex (r.label, toLex (r.city, r.country))

theorem aggKey_buildAgg (rows : List BRow) (k : AKey) : aggKey (buildAgg rows k) = k := rfl

theorem keysOf_sorted (rows : List BRow) :
    List.Sorted (fun a b : AKey => a ≤ b) (keysOf rows) :=
  List.sorted_insertionSort _ _

theorem keysOf_nodup (rows : List BRow) : (keysOf rows).Nodup :=
  ((List.perm_insertionSort _ _).nodup_iff).mpr (List.nodup_dedup _)

theorem keysOf_pairwise_lt (rows : List BRow) :
    (keysOf rows).Pairwise (fun a b => a < b) :=
  ((keysOf_sorted rows).and (keysOf_nodup rows)).imp
    (fun h => lt_of_le_of_ne h.1 h.2)

theorem mem_keysOf {rows : List BRow} {k : AKey} (hk : k ∈ keysOf rows) :
    ∃ b, b ∈ rows ∧ rowKey b = k := by
  have h1 : k ∈ (rows.map rowKey).dedup := (List.perm_insertionSort _ _).mem_iff.mp hk
  exact List.mem_map.mp (List.mem_dedup.mp h1)

theorem mean_perm {l1 l2 : List Rat} (h : l1.Perm l2) : mean l1 = mean l2 := by
  rw [mean, mean, h.sum_eq, h.length_eq]

theorem meanOpt_perm {l1 l2 : List Rat} (h : l1.Perm l2) : meanOpt l1 = meanOpt l2 := by
  by_cases h1 : l1 = []
  · subst h1
    rw [h.symm.eq_nil]
  · have h2 : l2 ≠ [] := fun hh => h1 (by rw [hh] at h; exact h.eq_nil)
    rw [meanOpt, meanOpt, if_neg h1, if_neg h2, mean_perm h]

theorem buildAgg_perm {r1 r2 : List BRow} (h : r1.Perm r2) (k : AKey) :
    buildAgg r1 k = buildAgg r2 k := by
  have hg : (groupFor r1 k).Perm (groupFor r2 k) := h.filter _
  unfold buildAgg
  rw [mean_perm (hg.map (fun r => r.avgTemp)),
      meanOpt_perm (hg.filterMap (fun r => r.avgTempUnc)),
      mean_perm (hg.map (fun r => r.lat)),
      mean_perm (hg.map (fun r => r.lon))]

theorem keysOf_perm {r1 r2 : List BRow} (h : r1.Perm r2) : keysOf r1 = keysOf r2 :=
  List.eq_of_perm_of_sorted
    (((List.perm_insertionSort _ _).trans ((h.map rowKey).dedup)).trans
      (List.perm_insertionSort _ _).symm)
    (keysOf_sorted r1) (keysOf_sorted r2)

theorem aggregate_perm {r1 r2 : List BRow} (h : r1.Perm r2) :
    aggregate r1 = aggregate r2 := by
  rw [aggregate, aggregate, keysOf_perm h]
  exact List.map_congr_left (fun k _ => buildAgg_perm h k)

theorem rangeFilter_perm {rows1 rows2 : List CRow} (h : rows1.Perm rows2) :
    (rangeFilter rows1).Perm (rangeFilter rows2) := h.filter _

theorem pipelineAgg_perm {rows1 rows2 : List CRow} (h : rows1.Perm rows2) :
    pipelineAgg rows1 = pipelineAgg rows2 := by
  rw [pipelineAgg, pipelineAgg, aggregate_perm ((rangeFilter_perm h).map binRow)]

theorem aggregate_pairwise_key (rows : List BRow) :
    (aggregate rows).Pairwise (fun a b => aggKey a < aggKey b) := by
  rw [aggregate, List.pairwise_map]
  exact (keysOf_pairwise_lt rows).imp (fun h => h)

theorem pipelineAgg_pairwise_key (rows : List CRow) :
    (pipelineAgg rows).Pairwise (fun a b => aggKey a < aggKey b) := by
  rw [pipelineAgg, roundAgg, List.pairwise_map]
  exact (aggregate_pairwise_key _).imp (fun h => h)

theorem mem_pipelineAgg_label {rows : List CRow} {a : AggRow}
    (ha : a ∈ pipelineAgg rows) :
    ∃ y, 1743 ≤ y ∧ y ≤ 2013 ∧ a.label = yearString y := by
  rw [pipelineAgg, roundAgg] at ha
  obtain ⟨b, hb, rfl⟩ := List.mem_map.mp ha
  rw [aggregate] at hb
  obtain ⟨k, hk, rfl⟩ := List.mem_map.mp hb
  obtain ⟨br, hbr, rfl⟩ := mem_keysOf hk
  obtain ⟨cr, hcr, rfl⟩ := List.mem_map.mp hbr
  have hcb := List.mem_filter.mp hcr
  have hdt : 17430101 ≤ cr.dt ∧ cr.dt ≤ 20131231 := by simpa using hcb.2
  refine ⟨cr.dt / 10000, by omega, by omega, ?_⟩
  show (binRow cr).label = yearString (cr.dt / 10000)
  rw [binRow, if_pos (show TIME_STEP = "Yearly" from rfl)]

/-- C3: the aggregated output is sorted by chronological period first
(decimal value of the year label) and City second, and the whole aggregated
output is invariant under any permutation of the input rows. -/
theorem pipelineAgg_sorted_and_order_independent (rows rows2 : List CRow)
    (hperm : rows2.Perm rows) :
    (pipelineAgg rows).Pairwise (fun a b =>
        yearVal a.label < yearVal b.label
        ∨ (yearVal a.label = yearVal b.label ∧ a.city ≤ b.city))
    ∧ pipelineAgg rows2 = pipelineAgg rows := by
  refine ⟨?_, pipelineAgg_perm hperm⟩
  refine (pipelineAgg_pairwise_key rows).imp_of_mem ?_
  intro a b ha hb hlt
  obtain ⟨y1, hy11, hy12, he1⟩ := mem_pipelineAgg_label ha
  obtain ⟨y2, hy21, hy22, he2⟩ := mem_pipelineAgg_label hb
  have hlt2 := (Prod.Lex.lt_iff _ _).mp hlt
  dsimp only at hlt2
  rcases hlt2 with h1 | ⟨h1, h2⟩
  · left
    rw [he1, he2] at h1 ⊢
    rw [yearVal_yearString (by omega) (by omega),
        yearVal_yearString (by omega) (by omega)]
    exact (yearString_lt_iff (by omega) (by omega) (by omega) (by omega)).mp h1
  · right
    refine ⟨by rw [h1], ?_⟩
    have h2b := (Prod.Lex.lt_iff _ _).mp h2
    dsimp only at h2b
    rcases h2b with h3 | ⟨h3, _⟩
    · exact le_of_lt h3
    · exact le_of_eq h3

theorem pipelineAgg_sorted_and_order_independent_witness :
    pipelineAgg
      [{ dt := 18500101, avgTemp := 2, avgTempUnc := none
       , city := "B", country := "C", lat := 1, lon := 1 },
       { dt := 19000101, avgTemp := 1, avgTempUnc := none
       , city := "A", country := "C", lat := 0, lon := 0 }]
    = pipelineAgg
      [{ dt := 19000101, avgTemp := 1, avgTempUnc := none
       , city := "A", country := "C", lat := 0, lon := 0 },
       { dt := 18500101, avgTemp := 2, avgTempUnc := none
       , city := "B", country := "C", lat := 1, lon := 1 }] :=
  (pipelineAgg_sorted_and_order_independent _ _ (List.Perm.swap _ _ _)).2

/-- C4: the aggregated output has at most one record per distinct
`(period_label, City, Country)` triple: the list of key triples is
duplicate-free, for any input. -/
theorem pipelineAgg_keys_nodup (rows : List CRow) :
    ((pipelineAgg rows).map (fun r => (r.label, r.city, r.country))).Nodup := by
  have hp := pipelineAgg_pairwise_key rows
  show ((pipelineAgg rows).map (fun r => (r.label, r.city, r.country))).Pairwise
    (fun a b => a ≠ b)
  rw [List.pairwise_map]
  refine hp.imp ?_
  intro a b hlt heq
  simp only [Prod.mk.injEq] at heq
  obtain ⟨e1, e2, e3⟩ := heq
  have hk : aggKey a = aggKey b := by rw [aggKey, aggKey, e1, e2, e3]
  exact (ne_of_lt hlt) hk

/-! ### C10: rounding rule -/

/-- C10: the 1-decimal rounding of the aggregated means uses
round-half-to-even (`np.round`), not round-half-up: a group mean of exactly
0.25 is published as 0.2 (half-up would give 0.3), and a mean of exactly
0.35 as 0.4; the scaled integer roundings behind them are
`rint 2.5 = 2` and `rint 3.5 = 4`. -/
theorem roundAgg_half_even :
    (pipelineAgg [{ dt := 19000101, avgTemp := 1/4, avgTempUnc := none
                  , city := "Paris", country := "France", lat := 0, lon := 0 }]).map
        (fun r => r.avgTemp) = [1/5]
    ∧ (pipelineAgg [{ dt := 19000101, avgTemp := 7/20, avgTempUnc := none
                    , city := "Paris", country := "France", lat := 0, lon := 0 }]).map
        (fun r => r.avgTemp) = [2/5]
    ∧ rintHalfEven ((1/4 : Rat) * 10) = 2 ∧ rintHalfEven ((7/20 : Rat) * 10) = 4 := by
  refine ⟨?_, ?_, ?_, ?_⟩ <;> with_unfolding_all decide

/-! ### C8: the color range -/

theorem foldl_min_le_init (l : List Rat) (x : Rat) : l.foldl min x ≤ x := by
  induction l generalizing x with
  | nil => exact le_refl x
  | cons a t ih =>
    rw [List.foldl_cons]
    exact le_trans (ih (min x a)) (min_le_left x a)

theorem foldl_min_le_mem (l : List Rat) : ∀ x y, y ∈ l → l.foldl min x ≤ y := by
  induction l with
  | nil => intro x y hy; cases hy
  | cons a t ih =>
    intro x y hy
    rw [List.foldl_cons]
    rcases List.mem_cons.mp hy with rfl | hyt
    · exact le_trans (foldl_min_le_init t (min x y)) (min_le_right x y)
    · exact ih (min x a) y hyt

theorem foldl_min_mem (l : List Rat) : ∀ x, l.foldl min x ∈ x :: l := by
  induction l with
  | nil => intro x; simp
  | cons a t ih =>
    intro x
    rw [List.foldl_cons]
    rcases List.mem_cons.mp (ih (min x a)) with h | h
    · rcases min_choice x a with hm | hm
      · rw [h, hm]; exact List.mem_cons_self _ _
      · rw [h, hm]; exact List.mem_cons_of_mem _ (List.mem_cons_self _ _)
    · exact List.mem_cons_of_mem _ (List.mem_cons_of_mem _ h)

theorem foldl_max_ge_init (l : List Rat) (x : Rat) : x ≤ l.foldl max x := by
  induction l generalizing x with
  | nil => exact le_refl x
  | cons a t ih =>
    rw [List.foldl_cons]
    exact le_trans (le_max_left x a) (ih (max x a))

theorem foldl_max_ge_mem (l : List Rat) : ∀ x y, y ∈ l → y ≤ l.foldl max x := by
  induction l with
  | nil => intro x y hy; cases hy
  | cons a t ih =>
    intro x y hy
    rw [List.foldl_cons]
    rcases List.mem_cons.mp hy with rfl | hyt
    · exact le_trans (le_max_right x y) (foldl_max_ge_init t (max x y))
    · exact ih (max x a) y hyt

theorem foldl_max_mem (l : List Rat) : ∀ x, l.foldl max x ∈ x :: l := by
  induction l with
  | nil => intro x; simp
  | cons a t ih =>
    intro x
    rw [List.foldl_cons]
    rcases List.mem_cons.mp (ih (max x a)) with h | h
    · rcases max_choice x a with hm | hm
      · rw [h, hm]; exact List.mem_cons_self _ _
      · rw [h, hm]; exact List.mem_cons_of_mem _ (List.mem_cons_self _ _)
    · exact List.mem_cons_of_mem _ (List.mem_cons_of_mem _ h)

/-- C8: with `use_global_scale` on, the color range is exactly the pair of
the minimum and maximum over all aggregated `AverageTemperature` values:
both bounds are attained by some record and bound every record. With it off
the range is absent (`None`). -/
theorem colorRange_global_minmax (agg : List AggRow) (hne : agg ≠ []) :
    (∃ lo hi, colorRange true agg = some (lo, hi)
      ∧ lo ∈ agg.map (fun r => r.avgTemp) ∧ hi ∈ agg.map (fun r => r.avgTemp)
      ∧ ∀ r ∈ agg, lo ≤ r.avgTemp ∧ r.avgTemp ≤ hi)
    ∧ colorRange false agg = none := by
  refine ⟨?_, rfl⟩
  cases hagg : agg.map (fun r => r.avgTemp) with
  | nil =>
    cases agg with
    | nil => exact absurd rfl hne
    | cons a t => exact absurd hagg (by simp)
  | cons x xs =>
    refine ⟨xs.foldl min x, xs.foldl max x, ?_, ?_, ?_, ?_⟩
    · simp [colorRange, hagg, colMin, colMax]
    · exact foldl_min_mem xs x
    · exact foldl_max_mem xs x
    · intro r hr
      have hmem : r.avgTemp ∈ x :: xs := by
        rw [← hagg]
        exact List.mem_map_of_mem _ hr
      constructor
      · rcases List.mem_cons.mp hmem with h | h
        · rw [h]; exact foldl_min_le_init xs x
        · exact foldl_min_le_mem xs x _ h
      · rcases List.mem_cons.mp hmem with h | h
        · rw [h]; exact foldl_max_ge_init xs x
        · exact foldl_max_ge_mem xs x _ h

theorem colorRange_global_minmax_witness :
    colorRange false [{ label := "1900", city := "A", country := "B"
                      , avgTemp := 5, avgTempUnc := none, lat := 0, lon := 0 }] = none :=
  (colorRange_global_minmax _ (by simp)).2
